import Mathlib

/-!
Shallow embedding of the feature pipeline of the WIMHF demo frontend:
significance, ranking and example selection (src/frontend/src/App.js).

JavaScript numbers are modelled as rationals (`ℚ`); a field that may be
`null`/`undefined` is modelled as an `Option`.  A JS function that can throw
is modelled in `Except String`.  `Array.prototype.sort` with a numeric
comparator is modelled as a stable sort on the boolean relation
"comparator result ≤ 0", with the ECMAScript rule that a `NaN` comparator
result is treated as `0` (this arises only when both compared keys are
`-Infinity`, where the embedded relation likewise reports a tie).
-/

namespace WIMHF

/-- `SIGNIFICANCE_DENOMINATOR = 32` from App.js. -/
def SIGNIFICANCE_DENOMINATOR : ℚ := 32

/-- `SIGNIFICANCE_THRESHOLD = 0.05 / SIGNIFICANCE_DENOMINATOR` from App.js,
written as the explicit fraction `5/3200` so the kernel can evaluate it
(`Rat.div` is irreducible); `SIGNIFICANCE_THRESHOLD_eq` below checks it
against the source expression. -/
def SIGNIFICANCE_THRESHOLD : ℚ := mkRat 5 3200

/-- `MIN_FIDELITY = 0.3` from App.js, written as the explicit fraction
`3/10`; `MIN_FIDELITY_eq` below checks it against the source literal. -/
def MIN_FIDELITY : ℚ := mkRat 3 10

/-- The embedded threshold equals the source expression `0.05 / 32`. -/
theorem SIGNIFICANCE_THRESHOLD_eq :
    SIGNIFICANCE_THRESHOLD = 0.05 / SIGNIFICANCE_DENOMINATOR := by
  rw [SIGNIFICANCE_THRESHOLD, SIGNIFICANCE_DENOMINATOR, Rat.mkRat_eq_div]
  norm_num

/-- The embedded fidelity floor equals the source literal `0.3`. -/
theorem MIN_FIDELITY_eq : MIN_FIDELITY = (0.3 : ℚ) := by
  rw [MIN_FIDELITY, Rat.mkRat_eq_div]
  norm_num

/-- An example record: a prompt, two responses, a binary winner label and an
optional activation z-score (`activation_z_score` may be `null`/absent). -/
structure ExampleRec where
  prompt : String
  response_A : String
  response_B : String
  label : Int
  activation_z_score : Option ℚ
deriving DecidableEq, Repr

/-- The value found at one tier key of the `examples` object of a feature: the key
may be absent, hold a non-array value, or hold an array of examples. -/
inductive TierVal where
  | missing : TierVal
  | nonArray : TierVal
  | arr : List ExampleRec → TierVal
deriving DecidableEq, Repr

/-- The `examples` object of a feature, with the three tier keys tried by the
code in the fixed `EXAMPLE_FIELDS` order `top_5_percent`, `top_2_percent`,
`top_examples`. -/
structure ExamplesObj where
  top_5_percent : TierVal
  top_2_percent : TierVal
  top_examples : TierVal
deriving DecidableEq, Repr

/-- A feature record.  Every statistic field may be `null`/absent in the raw
JSON, so each is an `Option`. -/
structure Feature where
  feature_idx : Option Int
  interpretation : Option String
  delta_win_rate_percentage : Option ℚ
  win_rate_percentage : Option ℚ
  logit_p_value : Option ℚ
  win_rate_p_value : Option ℚ
  fidelity_correlation : Option ℚ
  prevalence_percentage : Option ℚ
  examples : Option ExamplesObj
deriving DecidableEq, Repr

/-- A feature record with every field absent; concrete inputs below override
just the fields they need. -/
def emptyFeature : Feature :=
  { feature_idx := none
    interpretation := none
    delta_win_rate_percentage := none
    win_rate_percentage := none
    logit_p_value := none
    win_rate_p_value := none
    fidelity_correlation := none
    prevalence_percentage := none
    examples := none }

/-- The string interpolation of `feature.feature_idx` (empty text when the
field is absent) in the error
message of `getLogitPValue`. -/
def featureIdxText (feature : Feature) : String :=
  match feature.feature_idx with
  | some i => toString i
  | none => ""

/-- The error message template
`Feature <idx> is missing logit_p_value` with `<idx>` interpolated as in
`featureIdxText`. -/
def missingLogitMsg (feature : Feature) : String :=
  "Feature " ++ featureIdxText feature ++ " is missing logit_p_value"

/-- `getLogitPValue` from App.js: returns `logit_p_value`, throwing a
descriptive error when the field is `null`/`undefined`. -/
def getLogitPValue (feature : Feature) : Except String ℚ :=
  match feature.logit_p_value with
  | none => .error (missingLogitMsg feature)
  | some p => .ok p

/-- `isFeatureSignificant` from App.js: compares `getLogitPValue feature`
against the corrected threshold; propagates the throw from `getLogitPValue`
when `logit_p_value` is absent. -/
def isFeatureSignificant (feature : Feature) : Except String Bool :=
  match getLogitPValue feature with
  | .error e => .error e
  | .ok p => .ok (decide (p ≤ SIGNIFICANCE_THRESHOLD))

/-- The inline per-row significance check of the third App.js variant
(around its feature-table body): significant iff `win_rate_p_value` is
present and at most the corrected threshold; absence means not significant,
no error. -/
def rowIsSignificant (feature : Feature) : Bool :=
  match feature.win_rate_p_value with
  | some p => decide (p ≤ SIGNIFICANCE_THRESHOLD)
  | none => false

/-- `getDeltaWinRate` from App.js: first present of
`delta_win_rate_percentage` then `win_rate_percentage`, else `null`. -/
def getDeltaWinRate (feature : Feature) : Option ℚ :=
  match feature.delta_win_rate_percentage with
  | some d => some d
  | none =>
      match feature.win_rate_percentage with
      | some w => some w
      | none => none

/-- JavaScript `Math.abs` on a rational. -/
def jsAbs (x : ℚ) : ℚ := if x < 0 then -x else x

/-- JavaScript `Math.round` on a rational: round half toward positive
infinity. -/
def jsRound (x : ℚ) : ℤ := ⌊x + 1/2⌋

/-- `formatSignedPercent` from the first App.js variant: an em dash for an absent
value; otherwise scale by 100 when `Math.abs(value) <= 1`, round, and prefix
a plus sign exactly when the rounded number is positive. -/
def formatSignedPercent (value : Option ℚ) : String :=
  match value with
  | none => "—"
  | some v =>
      let scaled := if jsAbs v ≤ 1 then v * 100 else v
      let rounded := jsRound scaled
      let sign := if 0 < rounded then "+" else ""
      sign ++ toString rounded ++ "%"

/-- `getExampleActivationScore` from App.js on a (non-null) example:
`activation_z_score`, or `null` when absent. -/
def getExampleActivationScore (e : ExampleRec) : Option ℚ :=
  e.activation_z_score

/-- The fidelity gate predicate of the `features` memo in App.js:
`fidelityScore !== null && fidelityScore !== undefined && fidelityScore >=
MIN_FIDELITY`. -/
def fidelityPass (feature : Feature) : Bool :=
  match feature.fidelity_correlation with
  | some c => decide (MIN_FIDELITY ≤ c)
  | none => false

/-- Sort direction toggle (`SORT_DIRECTIONS.DESC` / `SORT_DIRECTIONS.ASC`). -/
inductive Dir where
  | desc : Dir
  | asc : Dir
deriving DecidableEq, Repr

/-- Extended-real comparison `a ≤ b` on optional rationals where `none`
stands for the JavaScript value `-Infinity`. -/
def extLe (a b : Option ℚ) : Bool :=
  match a, b with
  | none, _ => true
  | some _, none => false
  | some x, some y => decide (x ≤ y)

/-- The boolean order corresponding to the `compareByDelta` comparator of
App.js: `leDelta dir a b` holds iff the comparator value on `(a, b)` is
`≤ 0`, i.e. the sort may place `a` at or before `b`.  The comparator is
`±(deltaA - deltaB)` with absent deltas coerced to `-Infinity`; when both are
`-Infinity` the subtraction is `NaN`, which the ECMAScript sort treats as `0`
(a tie), matching `extLe none none = true` on both orientations. -/
def leDelta (dir : Dir) (a b : Feature) : Bool :=
  match dir with
  | .desc => extLe (getDeltaWinRate b) (getDeltaWinRate a)
  | .asc => extLe (getDeltaWinRate a) (getDeltaWinRate b)

/-- Monadic filter in `Except String`, evaluating the predicate left to
right and propagating the first throw — the behaviour of
`Array.prototype.filter` with a throwing callback. -/
def filterE (p : Feature → Except String Bool) : List Feature → Except String (List Feature)
  | [] => .ok []
  | f :: fs =>
      match p f with
      | .error e => .error e
      | .ok b =>
          match filterE p fs with
          | .error e => .error e
          | .ok rest => .ok (if b then f :: rest else rest)

/-- The negated predicate `feature => !isFeatureSignificant(feature)` used
for the not-significant partition, still propagating the throw. -/
def isFeatureNotSignificant (feature : Feature) : Except String Bool :=
  match isFeatureSignificant feature with
  | .error e => .error e
  | .ok b => .ok (!b)

/-- The stable sort used to model `Array.prototype.sort` (stable per
ECMAScript 2019): a structurally recursive insertion sort on the boolean
comparator order.  For a total preorder the output of a stable sort is unique —
sorted, with tied elements in input order — so this agrees with any stable
implementation. -/
def jsSortBy (le : Feature → Feature → Bool) (l : List Feature) : List Feature :=
  List.insertionSort (fun a b => le a b = true) l

/-- The `features` memo of the first App.js variant as a function of the
entry list of the selected dataset and the sort direction: fidelity-gate, split
by significance (which throws if a gated feature misses `logit_p_value`),
sort each partition with `compareByDelta`, and concatenate significant
features first. -/
def rankFeatures (entries : List Feature) (dir : Dir) : Except String (List Feature) :=
  match filterE isFeatureSignificant (entries.filter fidelityPass) with
  | .error e => .error e
  | .ok significant =>
      match filterE isFeatureNotSignificant (entries.filter fidelityPass) with
      | .error e => .error e
      | .ok notSignificant =>
          .ok (jsSortBy (leDelta dir) significant ++
               jsSortBy (leDelta dir) notSignificant)

/-- Equality of ranking results is decidable, so concrete runs can be
checked by evaluation. -/
instance : DecidableEq (Except String (List Feature)) := fun a b =>
  match a, b with
  | .error e, .error f =>
      if h : e = f then isTrue (by rw [h])
      else isFalse (fun hh => h (Except.error.inj hh))
  | .ok x, .ok y =>
      if h : x = y then isTrue (by rw [h])
      else isFalse (fun hh => h (Except.ok.inj hh))
  | .error _, .ok _ => isFalse (fun hh => Except.noConfusion hh)
  | .ok _, .error _ => isFalse (fun hh => Except.noConfusion hh)

/-- `getFeatureExamples` from App.js: `[]` when the feature or its
`examples` object is absent, else the first tier in `EXAMPLE_FIELDS` order
holding a non-empty array, else `[]`. -/
def getFeatureExamples (feature : Option Feature) : List ExampleRec :=
  match feature with
  | none => []
  | some f =>
      match f.examples with
      | none => []
      | some ex =>
          match ex.top_5_percent with
          | .arr (x :: xs) => x :: xs
          | _ =>
              match ex.top_2_percent with
              | .arr (x :: xs) => x :: xs
              | _ =>
                  match ex.top_examples with
                  | .arr (x :: xs) => x :: xs
                  | _ => []

/-- The absolute-activation sort key of the `sortedExamples` memo:
`Math.abs(score)`, with a missing score coerced to `-Infinity` (`none`). -/
def exMetric (e : ExampleRec) : Option ℚ :=
  match getExampleActivationScore e with
  | some s => some (jsAbs s)
  | none => none

/-- The boolean order of the `sortedExamples` comparator
`bMetric - aMetric`: `a` may be placed at or before `b` iff the comparator
value is `≤ 0`, i.e. `bMetric ≤ aMetric` in the extended sense (the
both-`-Infinity` `NaN` case again counts as a tie). -/
def leExample (a b : ExampleRec) : Bool :=
  extLe (exMetric b) (exMetric a)

/-- The `sortedExamples` memo of App.js: the selected tier of
examples sorted (stably, as `Array.prototype.sort`) by absolute activation
score, descending, missing scores last. -/
def sortedExamples (selectedFeature : Option Feature) : List ExampleRec :=
  match getFeatureExamples selectedFeature with
  | [] => []
  | x :: xs => List.insertionSort (fun a b => leExample a b = true) (x :: xs)

/-- A raw dataset collection: dataset name to its feature records, in JS
object entry order. -/
abbrev DatasetMap := List (String × List Feature)

/-- The inner `Object.values(features).forEach(f => getLogitPValue(f))` loop
of `validateLogitPValues`: throws at the first feature with a missing
`logit_p_value`. -/
def validateFeatureList : List Feature → Except String Unit
  | [] => .ok ()
  | f :: fs =>
      match getLogitPValue f with
      | .error e => .error e
      | .ok _ => validateFeatureList fs

/-- `validateLogitPValues` from App.js: walk the features of every dataset and
demand `logit_p_value` on each, propagating the first throw. -/
def validateLogitPValues : DatasetMap → Except String Unit
  | [] => .ok ()
  | (_, features) :: rest =>
      match validateFeatureList features with
      | .error e => .error e
      | .ok _ => validateLogitPValues rest

/-- The post-parse slice of `loadData` in the first App.js variant:
`validateLogitPValues(json); setData(json);` — on success the whole parsed
collection is exposed, on a throw the catch block surfaces the error and
`setData` is never reached. -/
def loadDataParsed (json : DatasetMap) : Except String DatasetMap :=
  match validateLogitPValues json with
  | .error e => .error e
  | .ok _ => .ok json

/-- Specification helper: the first feature lacking `logit_p_value` in a
feature list, in order. -/
def firstMissingFeature : List Feature → Option Feature
  | [] => none
  | f :: fs =>
      match f.logit_p_value with
      | none => some f
      | some _ => firstMissingFeature fs

/-- Specification helper: the first feature lacking `logit_p_value` across
the dataset collection, in validation order. -/
def firstMissing : DatasetMap → Option Feature
  | [] => none
  | (_, features) :: rest =>
      match firstMissingFeature features with
      | some f => some f
      | none => firstMissing rest

/-- The derived presentation values of the third App.js variant and its
`ExampleCard` (preference-oriented policy): the left response box shows the
chosen response, the right box the rejected one. -/
structure CardV3 where
  chosenResponse : String
  rejectedResponse : String
  leftResponse : String
  rightResponse : String
  signedZScore : Option ℚ
  comparisonText : String
deriving DecidableEq, Repr

/-- `ExampleCard` of the third App.js variant as a pure function of the
example: `winnerIsA = (label === 1)`, chosen/rejected responses, the signed
z-score `raw * (winnerIsA ? 1 : -1)`, and the comparison text. -/
def exampleCardV3 (e : ExampleRec) : CardV3 :=
  let winnerIsA : Bool := e.label = 1
  let chosenResponse := if winnerIsA then e.response_A else e.response_B
  let rejectedResponse := if winnerIsA then e.response_B else e.response_A
  let signedZScore : Option ℚ :=
    match e.activation_z_score with
    | some raw => some (raw * (if winnerIsA then 1 else -1))
    | none => none
  let comparisonText :=
    match signedZScore with
    | none => "Feature difference unavailable."
    | some s =>
        if 0 < s then "Chosen response contains the feature more."
        else if s < 0 then "Rejected response contains the feature more."
        else "Feature appears equally in both responses."
  { chosenResponse := chosenResponse
    rejectedResponse := rejectedResponse
    leftResponse := chosenResponse
    rightResponse := rejectedResponse
    signedZScore := signedZScore
    comparisonText := comparisonText }

/-- Specification helper: does a tier value hold a non-empty array? -/
def nonEmptyArr : TierVal → Bool
  | .arr (_ :: _) => true
  | _ => false

/-- Specification helper: the list held by a tier value (`[]` when the tier
is missing or not an array). -/
def tierItems : TierVal → List ExampleRec
  | .arr xs => xs
  | _ => []

/-- The significance rule exactly as the claim words it: the resolved
p-value is the first present of `logit_p_value` then `win_rate_p_value`, and
both absent means "not significant" with no error.  Stated only to be
compared against the source function `isFeatureSignificant`. -/
def claimResolvedSignificant (f : Feature) : Bool :=
  match f.logit_p_value with
  | some p => decide (p ≤ SIGNIFICANCE_THRESHOLD)
  | none =>
      match f.win_rate_p_value with
      | some p => decide (p ≤ SIGNIFICANCE_THRESHOLD)
      | none => false

/-- Specification helper: the boolean significance classification a feature
receives inside a successful ranking run (`false` is unreachable garbage for
features whose `logit_p_value` is absent, since ranking throws there). -/
def sigB (f : Feature) : Bool :=
  match isFeatureSignificant f with
  | .ok b => b
  | .error _ => false

/-! ### Order-theoretic facts about the comparator embeddings -/

theorem extLe_total (a b : Option ℚ) : (extLe a b || extLe b a) = true := by
  cases a with
  | none => simp [extLe]
  | some x =>
      cases b with
      | none => simp [extLe]
      | some y =>
          simp only [extLe, Bool.or_eq_true, decide_eq_true_eq]
          exact le_total x y

theorem extLe_trans {a b c : Option ℚ} (h1 : extLe a b = true) (h2 : extLe b c = true) :
    extLe a c = true := by
  cases a with
  | none => simp [extLe]
  | some x =>
      cases b with
      | none => simp [extLe] at h1
      | some y =>
          cases c with
          | none => simp [extLe] at h2
          | some z =>
              simp only [extLe, decide_eq_true_eq] at h1 h2 ⊢
              exact le_trans h1 h2

theorem extLe_none_right {a : Option ℚ} (h : extLe a none = true) : a = none := by
  cases a with
  | none => rfl
  | some x => simp [extLe] at h

theorem leDelta_total (dir : Dir) (a b : Feature) :
    (leDelta dir a b || leDelta dir b a) = true := by
  cases dir with
  | desc => exact extLe_total (getDeltaWinRate b) (getDeltaWinRate a)
  | asc => exact extLe_total (getDeltaWinRate a) (getDeltaWinRate b)

theorem leDelta_trans (dir : Dir) (a b c : Feature)
    (h1 : leDelta dir a b = true) (h2 : leDelta dir b c = true) :
    leDelta dir a c = true := by
  cases dir with
  | desc => exact extLe_trans h2 h1
  | asc => exact extLe_trans h1 h2

theorem leExample_total (a b : ExampleRec) : (leExample a b || leExample b a) = true :=
  extLe_total (exMetric b) (exMetric a)

theorem leExample_trans (a b c : ExampleRec)
    (h1 : leExample a b = true) (h2 : leExample b c = true) :
    leExample a c = true :=
  extLe_trans h2 h1

theorem jsSortBy_perm (le : Feature → Feature → Bool) (l : List Feature) :
    (jsSortBy le l).Perm l :=
  List.perm_insertionSort (fun a b => le a b = true) l

theorem jsSortBy_sorted (le : Feature → Feature → Bool)
    (htrans : ∀ a b c, le a b = true → le b c = true → le a c = true)
    (htotal : ∀ a b, (le a b || le b a) = true) (l : List Feature) :
    (jsSortBy le l).Pairwise (fun a b => le a b = true) := by
  letI : IsTotal Feature (fun a b => le a b = true) :=
    ⟨fun a b => by
      cases a1 : le a b with
      | true => exact Or.inl rfl
      | false =>
          right
          have h := htotal a b
          rw [a1] at h
          simpa using h⟩
  letI : IsTrans Feature (fun a b => le a b = true) := ⟨htrans⟩
  exact List.sorted_insertionSort (fun a b => le a b = true) l

/-! ### Stability of the sort on equal comparable deltas -/

/-- Specification helper: the subsequence of a feature list whose comparable
delta equals `k`, kept in order. -/
def sameDelta (k : Option ℚ) (l : List Feature) : List Feature :=
  l.filter (fun f => decide (getDeltaWinRate f = k))

theorem extLe_refl (a : Option ℚ) : extLe a a = true := by
  cases a with
  | none => rfl
  | some x => simp [extLe]

theorem leDelta_of_delta_eq (dir : Dir) {a b : Feature}
    (h : getDeltaWinRate a = getDeltaWinRate b) : leDelta dir a b = true := by
  cases dir with
  | desc =>
      simp only [leDelta]
      rw [h]
      exact extLe_refl (getDeltaWinRate b)
  | asc =>
      simp only [leDelta]
      rw [h]
      exact extLe_refl (getDeltaWinRate b)

theorem sameDelta_orderedInsert_eq (dir : Dir) (a : Feature) (l : List Feature) :
    sameDelta (getDeltaWinRate a)
        (List.orderedInsert (fun x y => leDelta dir x y = true) a l) =
      a :: sameDelta (getDeltaWinRate a) l := by
  induction l with
  | nil => simp [List.orderedInsert, sameDelta]
  | cons b l ih =>
      by_cases hr : leDelta dir a b = true
      · simp only [List.orderedInsert, if_pos hr]
        simp [sameDelta, List.filter_cons]
      · have hkey : ¬ (getDeltaWinRate b = getDeltaWinRate a) := fun hk =>
          hr (leDelta_of_delta_eq dir hk.symm)
        simp only [List.orderedInsert, if_neg hr]
        simp only [sameDelta, List.filter_cons] at ih ⊢
        simp [hkey, ih]

theorem sameDelta_orderedInsert_ne (dir : Dir) (a : Feature) (k : Option ℚ)
    (hk : k ≠ getDeltaWinRate a) (l : List Feature) :
    sameDelta k (List.orderedInsert (fun x y => leDelta dir x y = true) a l) =
      sameDelta k l := by
  have hka : ¬ (getDeltaWinRate a = k) := fun h => hk h.symm
  induction l with
  | nil => simp [List.orderedInsert, sameDelta, hka]
  | cons b l ih =>
      by_cases hr : leDelta dir a b = true
      · simp only [List.orderedInsert, if_pos hr]
        simp [sameDelta, List.filter_cons, hka]
      · simp only [List.orderedInsert, if_neg hr]
        simp only [sameDelta, List.filter_cons] at ih ⊢
        simp [ih]

theorem sameDelta_insertionSort (dir : Dir) (k : Option ℚ) (l : List Feature) :
    sameDelta k (List.insertionSort (fun x y => leDelta dir x y = true) l) =
      sameDelta k l := by
  induction l with
  | nil => rfl
  | cons a l ih =>
      simp only [List.insertionSort]
      by_cases hk : k = getDeltaWinRate a
      · subst hk
        rw [sameDelta_orderedInsert_eq dir a, ih]
        simp [sameDelta, List.filter_cons]
      · rw [sameDelta_orderedInsert_ne dir a k hk, ih]
        have hka : ¬ (getDeltaWinRate a = k) := fun h => hk h.symm
        simp [sameDelta, List.filter_cons, hka]

/-- The sort model never reorders two elements with equal comparable deltas:
the tie class of every key comes out exactly as it went in, for either
direction. -/
theorem sameDelta_jsSortBy (dir : Dir) (k : Option ℚ) (l : List Feature) :
    sameDelta k (jsSortBy (leDelta dir) l) = sameDelta k l :=
  sameDelta_insertionSort dir k l

/-! ### Facts about the throwing filter -/

/-- The boolean a predicate in `Except` computes when it does not throw. -/
def exceptBool (p : Feature → Except String Bool) (f : Feature) : Bool :=
  match p f with
  | .ok b => b
  | .error _ => false

theorem filterE_ok_eq {p : Feature → Except String Bool} :
    ∀ {l r : List Feature}, filterE p l = .ok r → r = l.filter (exceptBool p) := by
  intro l
  induction l with
  | nil =>
      intro r h
      simp only [filterE, Except.ok.injEq] at h
      simp [← h]
  | cons f fs ih =>
      intro r h
      simp only [filterE] at h
      cases hp : p f with
      | error e => rw [hp] at h; cases h
      | ok b =>
          rw [hp] at h
          cases hr : filterE p fs with
          | error e => rw [hr] at h; cases h
          | ok rest =>
              rw [hr] at h
              simp only [Except.ok.injEq] at h
              have hrest := ih hr
              cases b with
              | true => simp [← h, List.filter, exceptBool, hp, hrest]
              | false => simp [← h, List.filter, exceptBool, hp, hrest]

theorem filterE_ok_no_throw {p : Feature → Except String Bool} :
    ∀ {l r : List Feature}, filterE p l = .ok r → ∀ f ∈ l, ∃ b, p f = .ok b := by
  intro l
  induction l with
  | nil => intro r _ f hf; cases hf
  | cons g gs ih =>
      intro r h f hf
      simp only [filterE] at h
      cases hp : p g with
      | error e => rw [hp] at h; cases h
      | ok b =>
          rw [hp] at h
          cases hr : filterE p gs with
          | error e => rw [hr] at h; cases h
          | ok rest =>
              rcases List.mem_cons.mp hf with rfl | hmem
              · exact ⟨b, hp⟩
              · exact ih hr f hmem

theorem filterE_ok_mem {p : Feature → Except String Bool} {l r : List Feature}
    (h : filterE p l = .ok r) {f : Feature} (hf : f ∈ r) : p f = .ok true := by
  rw [filterE_ok_eq h] at hf
  have hb := (List.mem_filter.mp hf).2
  have hl := (List.mem_filter.mp hf).1
  obtain ⟨b, hpb⟩ := filterE_ok_no_throw h f hl
  simp only [exceptBool, hpb] at hb
  rw [hb] at hpb
  exact hpb

/-! ### Structure of a successful ranking run -/

theorem rank_ok_struct {entries : List Feature} {dir : Dir} {out : List Feature}
    (h : rankFeatures entries dir = .ok out) :
    ∃ S N, filterE isFeatureSignificant (entries.filter fidelityPass) = .ok S ∧
      filterE isFeatureNotSignificant (entries.filter fidelityPass) = .ok N ∧
      out = jsSortBy (leDelta dir) S ++ jsSortBy (leDelta dir) N := by
  unfold rankFeatures at h
  cases h1 : filterE isFeatureSignificant (entries.filter fidelityPass) with
  | error e => rw [h1] at h; cases h
  | ok S =>
      rw [h1] at h
      cases h2 : filterE isFeatureNotSignificant (entries.filter fidelityPass) with
      | error e => rw [h2] at h; cases h
      | ok N =>
          rw [h2] at h
          simp only [Except.ok.injEq] at h
          exact ⟨S, N, rfl, rfl, h.symm⟩

theorem sigB_of_mem_sig {l S : List Feature}
    (h : filterE isFeatureSignificant l = .ok S) {f : Feature} (hf : f ∈ S) :
    sigB f = true := by
  have h1 := filterE_ok_mem h hf
  simp [sigB, h1]

theorem sig_false_of_mem_notsig {l N : List Feature}
    (h : filterE isFeatureNotSignificant l = .ok N) {f : Feature} (hf : f ∈ N) :
    isFeatureSignificant f = .ok false := by
  have h1 := filterE_ok_mem h hf
  simp only [isFeatureNotSignificant] at h1
  cases hs : isFeatureSignificant f with
  | error e => rw [hs] at h1; cases h1
  | ok b =>
      rw [hs] at h1
      simp only [Except.ok.injEq, Bool.not_eq_true'] at h1
      rw [h1]

theorem rank_ok_parts {entries : List Feature} {dir : Dir} {out : List Feature}
    (h : rankFeatures entries dir = .ok out) :
    ∃ S N,
      filterE isFeatureSignificant (entries.filter fidelityPass) = .ok S ∧
      filterE isFeatureNotSignificant (entries.filter fidelityPass) = .ok N ∧
      out = jsSortBy (leDelta dir) S ++ jsSortBy (leDelta dir) N ∧
      out.filter sigB = jsSortBy (leDelta dir) S ∧
      out.filter (fun f => !(sigB f)) = jsSortBy (leDelta dir) N := by
  obtain ⟨S, N, h1, h2, hout⟩ := rank_ok_struct h
  have hmemS : ∀ f ∈ jsSortBy (leDelta dir) S, sigB f = true := fun f hf =>
    sigB_of_mem_sig h1 (((jsSortBy_perm (leDelta dir) S).mem_iff).mp hf)
  have hmemN : ∀ f ∈ jsSortBy (leDelta dir) N, sigB f = false := fun f hf => by
    have hs := sig_false_of_mem_notsig h2 (((jsSortBy_perm (leDelta dir) N).mem_iff).mp hf)
    simp [sigB, hs]
  refine ⟨S, N, h1, h2, hout, ?_, ?_⟩
  · rw [hout, List.filter_append, List.filter_eq_self.mpr hmemS,
      List.filter_eq_nil_iff.mpr (fun a ha => by simp [hmemN a ha]), List.append_nil]
  · rw [hout, List.filter_append,
      List.filter_eq_nil_iff.mpr (fun a ha => by simp [hmemS a ha]),
      List.filter_eq_self.mpr (fun a ha => by simp [hmemN a ha]), List.nil_append]

theorem notsig_filterE_eq {l N : List Feature}
    (h2 : filterE isFeatureNotSignificant l = .ok N) :
    N = l.filter (fun f => !(sigB f)) := by
  rw [filterE_ok_eq h2]
  apply List.filter_congr
  intro f hf
  obtain ⟨c, hc⟩ := filterE_ok_no_throw h2 f hf
  cases hs : isFeatureSignificant f with
  | error e => rw [isFeatureNotSignificant, hs] at hc; cases hc
  | ok b => simp [exceptBool, isFeatureNotSignificant, hs, sigB]

theorem rank_ok_perm {entries : List Feature} {dir : Dir} {out : List Feature}
    (h : rankFeatures entries dir = .ok out) :
    out.Perm (entries.filter fidelityPass) := by
  obtain ⟨S, N, h1, h2, hout, _, _⟩ := rank_ok_parts h
  have hS : S = (entries.filter fidelityPass).filter sigB := filterE_ok_eq h1
  have hN : N = (entries.filter fidelityPass).filter (fun f => !(sigB f)) :=
    notsig_filterE_eq h2
  rw [hout]
  have hstep : (jsSortBy (leDelta dir) S ++ jsSortBy (leDelta dir) N).Perm (S ++ N) :=
    (jsSortBy_perm (leDelta dir) S).append (jsSortBy_perm (leDelta dir) N)
  refine hstep.trans ?_
  rw [hS, hN]
  exact List.filter_append_perm sigB (entries.filter fidelityPass)

theorem rank_partitions_sorted {entries : List Feature} {dir : Dir} {out : List Feature}
    (h : rankFeatures entries dir = .ok out) :
    (out.filter sigB).Pairwise (fun a b => leDelta dir a b = true) ∧
    (out.filter (fun f => !(sigB f))).Pairwise (fun a b => leDelta dir a b = true) := by
  obtain ⟨S, N, _, _, _, hfS, hfN⟩ := rank_ok_parts h
  constructor
  · rw [hfS]
    exact jsSortBy_sorted (leDelta dir) (leDelta_trans dir) (leDelta_total dir) S
  · rw [hfN]
    exact jsSortBy_sorted (leDelta dir) (leDelta_trans dir) (leDelta_total dir) N

/-! ### Facts about load-time validation -/

theorem firstMissingFeature_none_iff {fs : List Feature} :
    firstMissingFeature fs = none ↔ ∀ f ∈ fs, (f.logit_p_value).isSome = true := by
  induction fs with
  | nil => simp [firstMissingFeature]
  | cons f fs ih =>
      cases hp : f.logit_p_value with
      | none =>
          simp only [firstMissingFeature, hp]
          constructor
          · intro h; cases h
          · intro h
            have hf := h f (List.mem_cons_self f fs)
            rw [hp] at hf; cases hf
      | some p =>
          simp only [firstMissingFeature, hp]
          rw [ih]
          constructor
          · intro h g hg
            rcases List.mem_cons.mp hg with rfl | hg2
            · rw [hp]; rfl
            · exact h g hg2
          · intro h g hg
            exact h g (List.mem_cons_of_mem _ hg)

theorem firstMissingFeature_some {fs : List Feature} {f : Feature}
    (h : firstMissingFeature fs = some f) :
    f ∈ fs ∧ f.logit_p_value = none := by
  induction fs with
  | nil => cases h
  | cons g gs ih =>
      cases hp : g.logit_p_value with
      | none =>
          rw [firstMissingFeature, hp] at h
          simp only [Option.some.injEq] at h
          subst h
          exact ⟨List.mem_cons_self _ _, hp⟩
      | some p =>
          rw [firstMissingFeature, hp] at h
          obtain ⟨hmem, hnone⟩ := ih h
          exact ⟨List.mem_cons_of_mem _ hmem, hnone⟩

theorem validateFeatureList_eq (fs : List Feature) :
    validateFeatureList fs =
      (match firstMissingFeature fs with
       | some f => .error (missingLogitMsg f)
       | none => .ok ()) := by
  induction fs with
  | nil => rfl
  | cons f fs ih =>
      cases hp : f.logit_p_value with
      | none => simp [validateFeatureList, firstMissingFeature, getLogitPValue, hp]
      | some p => simp [validateFeatureList, firstMissingFeature, getLogitPValue, hp, ih]

theorem validateLogitPValues_eq (m : DatasetMap) :
    validateLogitPValues m =
      (match firstMissing m with
       | some f => .error (missingLogitMsg f)
       | none => .ok ()) := by
  induction m with
  | nil => rfl
  | cons q rest ih =>
      obtain ⟨name, fs⟩ := q
      cases hf : firstMissingFeature fs with
      | some f =>
          simp [validateLogitPValues, firstMissing, hf, validateFeatureList_eq]
      | none =>
          simp [validateLogitPValues, firstMissing, hf, validateFeatureList_eq, ih]

theorem firstMissing_none_iff (m : DatasetMap) :
    firstMissing m = none ↔ ∀ p ∈ m, ∀ f ∈ p.2, (f.logit_p_value).isSome = true := by
  induction m with
  | nil => simp [firstMissing]
  | cons q rest ih =>
      obtain ⟨name, fs⟩ := q
      cases hf : firstMissingFeature fs with
      | some f =>
          obtain ⟨hmem, hnone⟩ := firstMissingFeature_some hf
          simp only [firstMissing, hf]
          constructor
          · intro h; cases h
          · intro h
            have hx := h (name, fs) (List.mem_cons_self _ _) f hmem
            rw [hnone] at hx; cases hx
      | none =>
          simp only [firstMissing, hf]
          rw [ih]
          constructor
          · intro h p hp f hfm
            rcases List.mem_cons.mp hp with rfl | hp2
            · exact firstMissingFeature_none_iff.mp hf f hfm
            · exact h p hp2 f hfm
          · intro h p hp f hfm
            exact h p (List.mem_cons_of_mem _ hp) f hfm

theorem loadDataParsed_eq (m : DatasetMap) :
    loadDataParsed m =
      (match firstMissing m with
       | some f => .error (missingLogitMsg f)
       | none => .ok m) := by
  cases hf : firstMissing m with
  | some f => simp [loadDataParsed, validateLogitPValues_eq, hf]
  | none => simp [loadDataParsed, validateLogitPValues_eq, hf]

/-! ### Concrete records used by counterexamples and witnesses -/

/-- A feature whose `logit_p_value` is absent but whose `win_rate_p_value` is
well below the corrected threshold. -/
def cexBothSources : Feature :=
  { emptyFeature with
      feature_idx := some 7
      win_rate_p_value := some (mkRat 1 1000) }

/-- A significant, fidelity-passing feature that carries no fidelity field. -/
def featNoFidelity : Feature :=
  { emptyFeature with
      feature_idx := some 3
      logit_p_value := some (mkRat 1 1000)
      delta_win_rate_percentage := some 5 }

/-- Fidelity correlation 0.29, just below the floor. -/
def feat029 : Feature :=
  { emptyFeature with fidelity_correlation := some (mkRat 29 100) }

/-- Fidelity correlation 0.30, exactly at the floor. -/
def feat030 : Feature :=
  { emptyFeature with fidelity_correlation := some (mkRat 3 10) }

/-- A significant, fidelity-passing feature with delta 5. -/
def wSig : Feature :=
  { emptyFeature with
      feature_idx := some 1
      logit_p_value := some (mkRat 1 1000)
      fidelity_correlation := some (mkRat 1 2)
      delta_win_rate_percentage := some 5 }

/-- A non-significant, fidelity-passing feature with delta 10. -/
def wNon : Feature :=
  { emptyFeature with
      feature_idx := some 2
      logit_p_value := some (mkRat 1 2)
      fidelity_correlation := some (mkRat 1 2)
      delta_win_rate_percentage := some 10 }

/-- A second significant feature with the same delta as `wSig` (a tie). -/
def tieB : Feature :=
  { emptyFeature with
      feature_idx := some 2
      logit_p_value := some (mkRat 1 1000)
      fidelity_correlation := some (mkRat 1 2)
      delta_win_rate_percentage := some 5 }

/-- A significant, fidelity-passing feature with delta 10. -/
def revB : Feature :=
  { emptyFeature with
      feature_idx := some 2
      logit_p_value := some (mkRat 1 1000)
      fidelity_correlation := some (mkRat 1 2)
      delta_win_rate_percentage := some 10 }

/-- A significant, fidelity-passing feature with neither delta field. -/
def dNo : Feature :=
  { emptyFeature with
      feature_idx := some 2
      logit_p_value := some (mkRat 1 1000)
      fidelity_correlation := some (mkRat 1 2) }

/-- A feature with a `logit_p_value`, for the load-success side. -/
def w5Ok : Feature :=
  { emptyFeature with
      feature_idx := some 8
      logit_p_value := some (mkRat 1 100) }

/-- A feature with no `logit_p_value`, for the load-failure side. -/
def w5Bad : Feature := { emptyFeature with feature_idx := some 9 }

/-- An example with a given activation score and prompt. -/
def mkEx (s : Option ℚ) (n : String) : ExampleRec :=
  { prompt := n, response_A := "a", response_B := "b", label := 1,
    activation_z_score := s }

/-- The examples object with activation scores `[2.0, -5.0, null, 0.0]` in
its top tier. -/
def demoExamples : ExamplesObj :=
  { top_5_percent := .arr
      [mkEx (some 2) "e1", mkEx (some (-5)) "e2", mkEx none "e3", mkEx (some 0) "e4"]
    top_2_percent := .missing
    top_examples := .missing }

/-- The feature of the spec scenario carrying `demoExamples`. -/
def demoFeature : Feature :=
  { emptyFeature with examples := some demoExamples }

/-- An example where the judge chose response B, with raw score 3. -/
def wEx7 : ExampleRec :=
  { prompt := "p", response_A := "a", response_B := "b", label := 0,
    activation_z_score := some 3 }

/-- An examples object with an empty first tier and a non-empty second. -/
def w9Ex : ExamplesObj :=
  { top_5_percent := .arr []
    top_2_percent := .arr [mkEx (some 1) "w"]
    top_examples := .nonArray }

/-- A feature carrying `w9Ex`. -/
def w9Feat : Feature := { emptyFeature with examples := some w9Ex }

/-! ### Claim C1 -/

/-- C1 counterexample: on a feature whose `logit_p_value` is absent but whose
`win_rate_p_value` is 0.001 (≤ 0.05/32), the resolved-p-value rule of the claim
classifies it significant, yet the function `isFeatureSignificant` throws a
missing-`logit_p_value` error instead of returning a boolean. -/
theorem claim1_cex :
    claimResolvedSignificant cexBothSources = true ∧
    isFeatureSignificant cexBothSources = .error "Feature 7 is missing logit_p_value" := by
  constructor
  · decide
  · rfl

/-- C1 (amended): `isFeatureSignificant` reads only `logit_p_value` — it
returns true iff that field is present and ≤ 0.05/32, and throws the
descriptive missing-field error when it is absent, regardless of
`win_rate_p_value`; the `win_rate_p_value` path exists only as the third
variant as the inline row check, which returns false (no error) when that field
is absent. -/
theorem claim1_amended (f : Feature) :
    (isFeatureSignificant f = .ok true ↔
      ∃ p, f.logit_p_value = some p ∧ p ≤ SIGNIFICANCE_THRESHOLD) ∧
    (f.logit_p_value = none → isFeatureSignificant f = .error (missingLogitMsg f)) ∧
    (rowIsSignificant f = true ↔
      ∃ p, f.win_rate_p_value = some p ∧ p ≤ SIGNIFICANCE_THRESHOLD) := by
  refine ⟨?_, ?_, ?_⟩
  · cases hp : f.logit_p_value with
    | none => simp [isFeatureSignificant, getLogitPValue, hp]
    | some p => simp [isFeatureSignificant, getLogitPValue, hp]
  · intro h
    simp [isFeatureSignificant, getLogitPValue, h]
  · cases hp : f.win_rate_p_value with
    | none => simp [rowIsSignificant, hp]
    | some p => simp [rowIsSignificant, hp]

/-- Witness for C1 (amended) at a concrete feature with no `logit_p_value`. -/
theorem claim1_amended_witness :
    isFeatureSignificant emptyFeature = .error (missingLogitMsg emptyFeature) :=
  (claim1_amended emptyFeature).2.1 rfl

/-! ### Claim C2 -/

/-- C2 counterexample: a feature with no fidelity field at all is dropped by
the fidelity gate — `fidelityPass` is false on it and the ranking output
omits it — where the claim says a missing fidelity field never excludes. -/
theorem claim2_cex :
    featNoFidelity.fidelity_correlation = none ∧
    fidelityPass featNoFidelity = false ∧
    rankFeatures [featNoFidelity] Dir.desc = .ok [] := by
  refine ⟨rfl, rfl, rfl⟩

/-- C2 (amended): a feature passes the fidelity gate iff its
`fidelity_correlation` is present and ≥ 0.3; correlation 0.29 is excluded,
0.30 is included, and a feature with no fidelity field is also excluded. -/
theorem claim2_amended :
    (∀ f : Feature, fidelityPass f = true ↔
      ∃ c, f.fidelity_correlation = some c ∧ MIN_FIDELITY ≤ c) ∧
    fidelityPass feat029 = false ∧
    fidelityPass feat030 = true := by
  refine ⟨fun f => ?_, by decide, by decide⟩
  cases hc : f.fidelity_correlation with
  | none => simp [fidelityPass, hc]
  | some c => simp [fidelityPass, hc]

/-! ### Claim C3 -/

/-- C3: in every successful ranking output, for either direction, every
feature classified significant precedes every feature classified not
significant (no not-significant feature ever appears before a significant
one). -/
theorem claim3_significant_first (entries : List Feature) (dir : Dir) (out : List Feature)
    (h : rankFeatures entries dir = .ok out) :
    out.Pairwise (fun a b => sigB b = true → sigB a = true) := by
  obtain ⟨S, N, h1, h2, hout⟩ := rank_ok_struct h
  subst hout
  rw [List.pairwise_append]
  refine ⟨List.pairwise_of_forall_mem_list fun a ha b hb => ?_,
          List.pairwise_of_forall_mem_list fun a ha b hb => ?_,
          fun a ha b hb => ?_⟩
  · intro _
    exact sigB_of_mem_sig h1 (((jsSortBy_perm (leDelta dir) S).mem_iff).mp ha)
  · intro hbs
    have hsf := sig_false_of_mem_notsig h2 (((jsSortBy_perm (leDelta dir) N).mem_iff).mp hb)
    have hb2 : sigB b = false := by simp [sigB, hsf]
    rw [hb2] at hbs
    cases hbs
  · intro hbs
    have hsf := sig_false_of_mem_notsig h2 (((jsSortBy_perm (leDelta dir) N).mem_iff).mp hb)
    have hb2 : sigB b = false := by simp [sigB, hsf]
    rw [hb2] at hbs
    cases hbs

/-- Witness for C3 on a concrete two-feature run. -/
theorem claim3_witness :
    ([wSig, wNon] : List Feature).Pairwise (fun a b => sigB b = true → sigB a = true) :=
  claim3_significant_first [wSig, wNon] Dir.desc [wSig, wNon] (by decide)

/-! ### Claim C4 -/

/-- C4 counterexample: two distinct features with equal deltas keep the same
relative order under both directions (the sort is stable), so reversing the
direction does not reverse their relative order. -/
theorem claim4_cex :
    rankFeatures [wSig, tieB] Dir.desc = .ok [wSig, tieB] ∧
    rankFeatures [wSig, tieB] Dir.asc = .ok [wSig, tieB] ∧
    wSig ≠ tieB := by
  refine ⟨by decide, by decide, by decide⟩

/-- C4 (amended): reversing the direction never moves an element across the
significant/not-significant boundary (the two outputs are permutations of
each other, partition by partition); each partition is sorted by delta in
the toggled direction — so any two same-partition elements with distinct
deltas appear in opposite relative order — while for every delta value `k`
the elements of a partition whose delta equals `k` appear, under both
directions, exactly in their original (fidelity-filtered input) order: the
stable sort keeps equal-delta elements in their original relative order
instead of reversing them. -/
theorem claim4_amended (entries outD outA : List Feature)
    (hD : rankFeatures entries Dir.desc = .ok outD)
    (hA : rankFeatures entries Dir.asc = .ok outA) :
    outD.Perm outA ∧
    (outD.filter sigB).Perm (outA.filter sigB) ∧
    (outD.filter (fun f => !(sigB f))).Perm (outA.filter (fun f => !(sigB f))) ∧
    (outD.filter sigB).Pairwise (fun a b => leDelta Dir.desc a b = true) ∧
    (outD.filter (fun f => !(sigB f))).Pairwise (fun a b => leDelta Dir.desc a b = true) ∧
    (outA.filter sigB).Pairwise (fun a b => leDelta Dir.asc a b = true) ∧
    (outA.filter (fun f => !(sigB f))).Pairwise (fun a b => leDelta Dir.asc a b = true) ∧
    (∀ k : Option ℚ,
      sameDelta k (outD.filter sigB) =
        sameDelta k ((entries.filter fidelityPass).filter sigB) ∧
      sameDelta k (outA.filter sigB) =
        sameDelta k ((entries.filter fidelityPass).filter sigB) ∧
      sameDelta k (outD.filter (fun f => !(sigB f))) =
        sameDelta k ((entries.filter fidelityPass).filter (fun f => !(sigB f))) ∧
      sameDelta k (outA.filter (fun f => !(sigB f))) =
        sameDelta k ((entries.filter fidelityPass).filter (fun f => !(sigB f)))) := by
  have hperm : outD.Perm outA := (rank_ok_perm hD).trans (rank_ok_perm hA).symm
  obtain ⟨S, N, h1D, h2D, houtD, hfSD, hfND⟩ := rank_ok_parts hD
  obtain ⟨S2, N2, h1A, h2A, houtA, hfSA, hfNA⟩ := rank_ok_parts hA
  have hSS : S = S2 := Except.ok.inj (h1D.symm.trans h1A)
  have hNN : N = N2 := Except.ok.inj (h2D.symm.trans h2A)
  rw [← hSS] at hfSA
  rw [← hNN] at hfNA
  have hS : S = (entries.filter fidelityPass).filter sigB := filterE_ok_eq h1D
  have hN : N = (entries.filter fidelityPass).filter (fun f => !(sigB f)) :=
    notsig_filterE_eq h2D
  refine ⟨hperm, hperm.filter _, hperm.filter _,
    (rank_partitions_sorted hD).1, (rank_partitions_sorted hD).2,
    (rank_partitions_sorted hA).1, (rank_partitions_sorted hA).2, fun k => ?_⟩
  refine ⟨?_, ?_, ?_, ?_⟩
  · rw [hfSD, sameDelta_jsSortBy, hS]
  · rw [hfSA, sameDelta_jsSortBy, hS]
  · rw [hfND, sameDelta_jsSortBy, hN]
  · rw [hfNA, sameDelta_jsSortBy, hN]

/-- Witness for C4 (amended) on the concrete tied run: the equal-delta pair
keeps its original order in the significant partition. -/
theorem claim4_witness :
    sameDelta (some 5) (([wSig, tieB] : List Feature).filter sigB) =
      sameDelta (some 5) ((([wSig, tieB] : List Feature).filter fidelityPass).filter sigB) :=
  ((claim4_amended [wSig, tieB] [wSig, tieB] [wSig, tieB]
      (by decide) (by decide)).2.2.2.2.2.2.2 (some 5)).1

/-! ### Claim C5 -/

/-- C5: the load succeeds and exposes the whole parsed collection iff every
feature of every dataset carries `logit_p_value`; otherwise it fails on the
first missing occurrence with the descriptive error naming the offending
feature identifier (or an empty marker when the identifier is absent), and no data
is exposed. -/
theorem claim5_load_validation (m : DatasetMap) :
    (loadDataParsed m = .ok m ↔ ∀ p ∈ m, ∀ f ∈ p.2, (f.logit_p_value).isSome = true) ∧
    (∀ f, firstMissing m = some f → loadDataParsed m = .error (missingLogitMsg f)) := by
  constructor
  · rw [loadDataParsed_eq, ← firstMissing_none_iff]
    cases hf : firstMissing m with
    | some f => simp [hf]
    | none => simp [hf]
  · intro f hf
    rw [loadDataParsed_eq, hf]

/-- Witness for C5 on a concrete two-dataset collection whose second dataset
has a feature with no `logit_p_value`. -/
theorem claim5_witness :
    loadDataParsed [("D1", [w5Ok]), ("D2", [w5Bad])] = .error (missingLogitMsg w5Bad) :=
  (claim5_load_validation [("D1", [w5Ok]), ("D2", [w5Bad])]).2 w5Bad rfl

/-! ### Claim C6 -/

/-- C6: the example selector returns a permutation of the chosen tier of
examples, ordered by absolute activation score descending with missing
scores last (the `leExample` order), and on the feature with activation
scores `[2.0, -5.0, null, 0.0]` the output order is `[-5.0, 2.0, 0.0,
null]`. -/
theorem claim6_example_ordering :
    (∀ fo : Option Feature, (sortedExamples fo).Perm (getFeatureExamples fo)) ∧
    (∀ fo : Option Feature,
      (sortedExamples fo).Pairwise (fun a b => leExample a b = true)) ∧
    (sortedExamples (some demoFeature)).map (fun e => e.activation_z_score) =
      [some (-5 : ℚ), some 2, some 0, none] := by
  refine ⟨fun fo => ?_, fun fo => ?_, by decide⟩
  · cases hg : getFeatureExamples fo with
    | nil => simp [sortedExamples, hg]
    | cons x xs =>
        simp only [sortedExamples, hg]
        exact List.perm_insertionSort (fun a b => leExample a b = true) (x :: xs)
  · cases hg : getFeatureExamples fo with
    | nil => simp [sortedExamples, hg]
    | cons x xs =>
        simp only [sortedExamples, hg]
        letI : IsTotal ExampleRec (fun a b => leExample a b = true) :=
          ⟨fun a b => by
            cases a1 : leExample a b with
            | true => exact Or.inl rfl
            | false =>
                right
                have h := leExample_total a b
                rw [a1] at h
                simpa using h⟩
        letI : IsTrans ExampleRec (fun a b => leExample a b = true) := ⟨leExample_trans⟩
        exact List.sorted_insertionSort (fun a b => leExample a b = true) (x :: xs)

/-! ### Claim C7 -/

/-- C7: under the preference-oriented card, the left box always holds the
chosen response and the right box the rejected one; for an example with an
activation score, the reported signed score is the raw score times `+1` when
`label = 1` (response A chosen, shown left) and times `-1` when `label = 0`
(response B chosen, shown left). -/
theorem claim7_orientation (e : ExampleRec) (z : ℚ)
    (h : e.activation_z_score = some z) :
    (exampleCardV3 e).leftResponse = (exampleCardV3 e).chosenResponse ∧
    (exampleCardV3 e).rightResponse = (exampleCardV3 e).rejectedResponse ∧
    (e.label = 1 → (exampleCardV3 e).signedZScore = some z ∧
      (exampleCardV3 e).leftResponse = e.response_A) ∧
    (e.label = 0 → (exampleCardV3 e).signedZScore = some (-z) ∧
      (exampleCardV3 e).leftResponse = e.response_B) := by
  refine ⟨rfl, rfl, fun h1 => ⟨?_, ?_⟩, fun h0 => ⟨?_, ?_⟩⟩
  · simp [exampleCardV3, h, h1]
  · simp [exampleCardV3, h1]
  · simp [exampleCardV3, h, h0]
  · simp [exampleCardV3, h0]

/-- Witness for C7 at a concrete example with `label = 0` and raw score 3. -/
theorem claim7_witness :
    (exampleCardV3 wEx7).signedZScore = some (-3 : ℚ) ∧
    (exampleCardV3 wEx7).leftResponse = wEx7.response_B :=
  (claim7_orientation wEx7 3 rfl).2.2.2 rfl

/-! ### Claim C8 -/

/-- C8 counterexample: in the ascending direction a feature with neither
delta field is ranked first in its partition, not last — its `-Infinity`
delta is the smallest value. -/
theorem claim8_cex :
    getDeltaWinRate dNo = none ∧
    rankFeatures [wSig, dNo] Dir.asc = .ok [dNo, wSig] := by
  exact ⟨rfl, by decide⟩

/-- C8 (amended): a fidelity-passing feature with neither delta field still
appears in the ranking output, with its comparable delta treated as
`-Infinity`; within each partition such features are ordered last when the
direction is descending and first when it is ascending. -/
theorem claim8_missing_delta (entries : List Feature) (dir : Dir) (out : List Feature)
    (h : rankFeatures entries dir = .ok out) :
    (∀ f ∈ entries, fidelityPass f = true → f ∈ out) ∧
    (dir = Dir.desc →
      (out.filter sigB).Pairwise
        (fun a b => getDeltaWinRate a = none → getDeltaWinRate b = none) ∧
      (out.filter (fun f => !(sigB f))).Pairwise
        (fun a b => getDeltaWinRate a = none → getDeltaWinRate b = none)) ∧
    (dir = Dir.asc →
      (out.filter sigB).Pairwise
        (fun a b => getDeltaWinRate b = none → getDeltaWinRate a = none) ∧
      (out.filter (fun f => !(sigB f))).Pairwise
        (fun a b => getDeltaWinRate b = none → getDeltaWinRate a = none)) := by
  refine ⟨?_, ?_, ?_⟩
  · intro f hf hfid
    exact (rank_ok_perm h).mem_iff.mpr (List.mem_filter.mpr ⟨hf, hfid⟩)
  · rintro rfl
    obtain ⟨hs, hn⟩ := rank_partitions_sorted h
    constructor
    · refine hs.imp ?_
      intro a b hab hnone
      simp only [leDelta] at hab
      rw [hnone] at hab
      exact extLe_none_right hab
    · refine hn.imp ?_
      intro a b hab hnone
      simp only [leDelta] at hab
      rw [hnone] at hab
      exact extLe_none_right hab
  · rintro rfl
    obtain ⟨hs, hn⟩ := rank_partitions_sorted h
    constructor
    · refine hs.imp ?_
      intro a b hab hnone
      simp only [leDelta] at hab
      rw [hnone] at hab
      exact extLe_none_right hab
    · refine hn.imp ?_
      intro a b hab hnone
      simp only [leDelta] at hab
      rw [hnone] at hab
      exact extLe_none_right hab

/-- Witness for C8 (amended) on a concrete descending run containing a
feature with no delta fields. -/
theorem claim8_witness : dNo ∈ ([wSig, dNo] : List Feature) :=
  (claim8_missing_delta [wSig, dNo] Dir.desc [wSig, dNo] (by decide)).1 dNo
    (by decide) (by decide)

/-! ### Claim C9 -/

/-- C9: `getFeatureExamples` is total — an absent feature or absent
`examples` object yields `[]`, and otherwise the result is the first tier in
the fixed order `top_5_percent`, `top_2_percent`, `top_examples` holding a
non-empty array (missing, non-array and empty tiers are skipped), else
`[]`. -/
theorem claim9_examples_total (fo : Option Feature) :
    (fo = none → getFeatureExamples fo = []) ∧
    (∀ f, fo = some f → f.examples = none → getFeatureExamples fo = []) ∧
    (∀ f ex, fo = some f → f.examples = some ex →
      getFeatureExamples fo =
        (if nonEmptyArr ex.top_5_percent = true then tierItems ex.top_5_percent
         else if nonEmptyArr ex.top_2_percent = true then tierItems ex.top_2_percent
         else if nonEmptyArr ex.top_examples = true then tierItems ex.top_examples
         else [])) := by
  refine ⟨?_, ?_, ?_⟩
  · rintro rfl
    rfl
  · rintro f rfl hex
    simp [getFeatureExamples, hex]
  · rintro f ex rfl hex
    obtain ⟨t5, t2, te⟩ := ex
    rcases t5 with _ | _ | (_ | ⟨a, as⟩) <;>
      rcases t2 with _ | _ | (_ | ⟨b, bs⟩) <;>
        rcases te with _ | _ | (_ | ⟨c, cs⟩) <;>
          simp [getFeatureExamples, hex, nonEmptyArr, tierItems]

/-- Witness for C9 at a concrete feature whose first tier is an empty array
and whose second tier is non-empty. -/
theorem claim9_witness :
    getFeatureExamples (some w9Feat) =
      (if nonEmptyArr w9Ex.top_5_percent = true then tierItems w9Ex.top_5_percent
       else if nonEmptyArr w9Ex.top_2_percent = true then tierItems w9Ex.top_2_percent
       else if nonEmptyArr w9Ex.top_examples = true then tierItems w9Ex.top_examples
       else []) :=
  (claim9_examples_total (some w9Feat)).2.2 w9Feat w9Ex rfl rfl

/-! ### Claim C10 -/

/-- C10: for a present value `v`, `formatSignedPercent` renders
`Math.round(100 * v)` with a `%` suffix when `|v| ≤ 1` and `Math.round(v)`
with a `%` suffix otherwise, prefixed with `+` exactly when the rounded
number is positive; in particular `1` renders as `+100%` and `1.5` as
`+2%`. -/
theorem claim10_format :
    (∀ v : ℚ, formatSignedPercent (some v) =
      (if 0 < jsRound (if jsAbs v ≤ 1 then 100 * v else v) then "+" else "") ++
        toString (jsRound (if jsAbs v ≤ 1 then 100 * v else v)) ++ "%") ∧
    formatSignedPercent (some 1) = "+100%" ∧
    formatSignedPercent (some (3/2 : ℚ)) = "+2%" := by
  refine ⟨fun v => ?_, ?_, ?_⟩
  · simp only [formatSignedPercent]
    rw [mul_comm v 100]
  · have ha : jsAbs (1 : ℚ) ≤ 1 := by norm_num [jsAbs]
    have hr : jsRound ((1 : ℚ) * 100) = 100 := by norm_num [jsRound]
    simp only [formatSignedPercent]
    rw [if_pos ha, hr]
    rfl
  · have ha : ¬ (jsAbs (3/2 : ℚ) ≤ 1) := by norm_num [jsAbs]
    have hr : jsRound (3/2 : ℚ) = 2 := by norm_num [jsRound]
    simp only [formatSignedPercent]
    rw [if_neg ha, hr]
    rfl

end WIMHF
